import Mathlib

/-!
Shallow embedding of the CHIP-8 interpreter core in `src/vm.rs` of the
`aljen/dale` repository.

Modelling conventions:
* Machine integers are `Nat` with explicit truncation (`% 256` for `u8`,
  `% 65536` for `u16`, `&&&`/`>>>`/`<<<` mirroring the Rust bit operations);
  wrapping (release-profile) semantics is used for the arithmetic the source
  performs directly on `u8`/`u16`/`i8` values.
* The fixed arrays (`memory: [u8; 4096]`, `stack: [u16; 16]`, `v: [u8; 16]`)
  are modelled as functions `Nat → Nat`.  Indexing into `memory` and `stack`
  is bounds-checked exactly as Rust's checked indexing is, and a failed check
  (a panic) is `none`.  Indices into `v` are always nibbles extracted with
  `&&& 0xf` (hence `< 16`), so the Rust bounds check on `v` cannot fail and
  the accesses are modelled as total.
* `unimplemented!(...)` (a Rust panic) is `none`.
* The `rand_chacha::ChaCha8Rng` field is an external crate; it is abstracted
  as a byte stream `randomStream : Nat → Nat` with a position counter.  No
  claim touches the RND instruction.
Every `process_opcode_*` definition mirrors the statement order of the Rust
function of the same name, including the order of register writes (which is
observable when an operand register is the flag register `v[0xf]`).
-/

namespace Dale

def MEMORY_SIZE : Nat := 4096
def STACK_SIZE : Nat := 16
def V_REG_SIZE : Nat := 16
def INITIAL_PC : Nat := 0x200

/-- Pointwise update of an index-addressed store: the array write `f[i] = x`. -/
def updFn (f : Nat → Nat) (i x : Nat) : Nat → Nat :=
  fun j => if j = i then x else f j

/-- Register file (`struct Registers`). -/
structure Registers where
  v : Nat → Nat
  i : Nat
  pc : Nat
  sp : Nat
  delay_timer : Nat
  sound_timer : Nat

/-- Machine state (`struct VM`).  The ChaCha8 random generator is abstracted
as the byte stream it would produce plus a read position. -/
structure VM where
  memory : Nat → Nat
  stack : Nat → Nat
  regs : Registers
  randomStream : Nat → Nat
  randomPos : Nat

/-- Rust `Registers::reset`. -/
def Registers.reset (_r : Registers) : Registers :=
  { v := fun _ => 0
    i := 0
    pc := INITIAL_PC
    sp := STACK_SIZE
    delay_timer := 0
    sound_timer := 0 }

/-- Rust `VM::new` (the random stream is abstract; the source seeds ChaCha8 with 0). -/
def VM.new : VM :=
  { memory := fun _ => 0
    stack := fun _ => 0
    regs :=
      { v := fun _ => 0
        i := 0
        pc := INITIAL_PC
        sp := STACK_SIZE
        delay_timer := 0
        sound_timer := 0 }
    randomStream := fun _ => 0
    randomPos := 0 }

/-- Rust `VM::reset`: `memory.fill(0); stack.fill(0); regs.reset()`. -/
def VM.reset (m : VM) : VM :=
  { m with
    memory := fun _ => 0
    stack := fun _ => 0
    regs := m.regs.reset }

/-- Bounds-checked read `self.memory[address]`; out of range is a panic. -/
def VM.readMem (m : VM) (address : Nat) : Option Nat :=
  if address < MEMORY_SIZE then some (m.memory address) else none

/-- Bounds-checked write `self.memory[address] = value`. -/
def VM.writeMem (m : VM) (address value : Nat) : Option VM :=
  if address < MEMORY_SIZE then
    some { m with memory := updFn m.memory address value }
  else none

/-- Bounds-checked read `self.stack[index]`. -/
def VM.readStack (m : VM) (index : Nat) : Option Nat :=
  if index < STACK_SIZE then some (m.stack index) else none

/-- Bounds-checked write `self.stack[index] = value`. -/
def VM.writeStack (m : VM) (index value : Nat) : Option VM :=
  if index < STACK_SIZE then
    some { m with stack := updFn m.stack index value }
  else none

/-- Rust `VM::read_u8`. -/
def VM.read_u8 (m : VM) (address : Nat) : Option Nat :=
  m.readMem address

/-- Rust `VM::write_u8`. -/
def VM.write_u8 (m : VM) (address value : Nat) : Option VM :=
  m.writeMem address value

/-- Rust `VM::read_u16`: big-endian word
`((memory[address] as u16) << 8) | memory[address + 1] as u16`. -/
def VM.read_u16 (m : VM) (address : Nat) : Option Nat := do
  let hi ← m.readMem address
  let lo ← m.readMem (address + 1)
  pure ((hi <<< 8) ||| lo)

/-- Rust `VM::write_u16`: `memory[address] = (value >> 8) as u8;
memory[address + 1] = (value & 0xff) as u8`. -/
def VM.write_u16 (m : VM) (address value : Nat) : Option VM := do
  let m ← m.writeMem address ((value >>> 8) % 256)
  m.writeMem (address + 1) (value &&& 0xff)

/-- The ubiquitous `self.regs.pc += 2` (u16 wrapping add). -/
def VM.advancePc (m : VM) : VM :=
  { m with regs := { m.regs with pc := (m.regs.pc + 2) % 65536 } }

/-- Register write `self.regs.v[x] = value`. -/
def VM.setV (m : VM) (x value : Nat) : VM :=
  { m with regs := { m.regs with v := updFn m.regs.v x value } }

/-- `self.regs.pc = value`. -/
def VM.setPc (m : VM) (value : Nat) : VM :=
  { m with regs := { m.regs with pc := value } }

/-- `self.regs.sp = value`. -/
def VM.setSp (m : VM) (value : Nat) : VM :=
  { m with regs := { m.regs with sp := value } }

/-- `self.regs.i = value`. -/
def VM.setI (m : VM) (value : Nat) : VM :=
  { m with regs := { m.regs with i := value } }

/-- Wrapping 8-bit subtraction: models `(a as i8 - b as i8) as u8` from the
source (release semantics: two's-complement wraparound on the 8-bit
pattern).  For `a, b < 256` this is `(a - b) mod 256`. -/
def sub8 (a b : Nat) : Nat :=
  (a % 256 + 256 - b % 256) % 256

/-- CLS — `unimplemented!` in the source (panic). -/
def VM.process_opcode_00e0 (_m : VM) : Option VM := none

/-- RET — `pc = stack[sp]; stack[sp] = 0; sp += 1`. -/
def VM.process_opcode_00ee (m : VM) : Option VM := do
  let top ← m.readStack m.regs.sp
  let m := m.setPc top
  let m ← m.writeStack m.regs.sp 0
  pure (m.setSp ((m.regs.sp + 1) % 65536))

/-- SYS addr — `unimplemented!` in the source (panic). -/
def VM.process_opcode_0nnn (_m : VM) (_opcode : Nat) : Option VM := none

/-- Secondary dispatch for the 0x0 family. -/
def VM.process_opcode_0 (m : VM) (opcode : Nat) : Option VM :=
  let value := opcode &&& 0x0fff
  if value = 0x00ee then m.process_opcode_00ee
  else if value = 0x00e0 then m.process_opcode_00e0
  else m.process_opcode_0nnn value

/-- JP addr — `pc = opcode & 0x0fff`. -/
def VM.process_opcode_1nnn (m : VM) (opcode : Nat) : VM :=
  m.setPc (opcode &&& 0x0fff)

/-- CALL addr — `pc += 2; sp -= 1; stack[sp] = pc; pc = opcode & 0x0fff`.
The `sp -= 1` is a wrapping u16 decrement. -/
def VM.process_opcode_2nnn (m : VM) (opcode : Nat) : Option VM := do
  let m := m.advancePc
  let m := m.setSp ((m.regs.sp + 65535) % 65536)
  let m ← m.writeStack m.regs.sp m.regs.pc
  pure (m.setPc (opcode &&& 0x0fff))

/-- SE Vx, byte — `pc += 2; if v[x] == kk { pc += 2 }`. -/
def VM.process_opcode_3xkk (m : VM) (opcode : Nat) : VM :=
  let x := (opcode >>> 8) &&& 0x000f
  let kk := opcode &&& 0x00ff
  let m := m.advancePc
  if m.regs.v x = kk then m.advancePc else m

/-- SNE Vx, byte — `pc += 2; if v[x] != kk { pc += 2 }`. -/
def VM.process_opcode_4xkk (m : VM) (opcode : Nat) : VM :=
  let x := (opcode >>> 8) &&& 0x000f
  let kk := opcode &&& 0x00ff
  let m := m.advancePc
  if m.regs.v x ≠ kk then m.advancePc else m

/-- SE Vx, Vy — `pc += 2; if v[x] == v[y] { pc += 2 }`. -/
def VM.process_opcode_5xy0 (m : VM) (opcode : Nat) : VM :=
  let x := (opcode >>> 8) &&& 0x000f
  let y := (opcode >>> 4) &&& 0x000f
  let m := m.advancePc
  if m.regs.v x = m.regs.v y then m.advancePc else m

/-- LD Vx, byte — `pc += 2; v[x] = kk`. -/
def VM.process_opcode_6xkk (m : VM) (opcode : Nat) : VM :=
  let x := (opcode >>> 8) &&& 0x000f
  let kk := opcode &&& 0x00ff
  let m := m.advancePc
  m.setV x kk

/-- ADD Vx, byte — `pc += 2; v[x] += kk` (wrapping u8 add). -/
def VM.process_opcode_7xkk (m : VM) (opcode : Nat) : VM :=
  let x := (opcode >>> 8) &&& 0x000f
  let kk := opcode &&& 0x00ff
  let m := m.advancePc
  m.setV x ((m.regs.v x + kk) % 256)

/-- LD Vx, Vy — `pc += 2; v[x] = v[y]`. -/
def VM.process_opcode_8xy0 (m : VM) (x y : Nat) : VM :=
  let m := m.advancePc
  m.setV x (m.regs.v y)

/-- OR Vx, Vy — `pc += 2; v[x] = v[x] | v[y]`. -/
def VM.process_opcode_8xy1 (m : VM) (x y : Nat) : VM :=
  let m := m.advancePc
  m.setV x (m.regs.v x ||| m.regs.v y)

/-- AND Vx, Vy — `pc += 2; v[x] = v[x] & v[y]`. -/
def VM.process_opcode_8xy2 (m : VM) (x y : Nat) : VM :=
  let m := m.advancePc
  m.setV x (m.regs.v x &&& m.regs.v y)

/-- XOR Vx, Vy — `pc += 2; v[x] = v[x] ^ v[y]`. -/
def VM.process_opcode_8xy3 (m : VM) (x y : Nat) : VM :=
  let m := m.advancePc
  m.setV x (m.regs.v x ^^^ m.regs.v y)

/-- ADD Vx, Vy — `value = v[x] as u16 + v[y] as u16; pc += 2;
v[x] = (value & 0x00ff) as u8; v[0xf] = if value > 255 { 1 } else { 0 }`.
Note the flag write comes last, after the `v[x]` write. -/
def VM.process_opcode_8xy4 (m : VM) (x y : Nat) : VM :=
  let value := m.regs.v x + m.regs.v y
  let m := m.advancePc
  let m := m.setV x (value &&& 0x00ff)
  m.setV 0xf (if value > 255 then 1 else 0)

/-- SUB Vx, Vy — `pc += 2; v[0xf] = if v[x] > v[y] { 1 } else { 0 };
v[x] = (v[x] as i8 - v[y] as i8) as u8`.  Note the flag write comes first,
so the subtraction reads the registers after the flag was stored. -/
def VM.process_opcode_8xy5 (m : VM) (x y : Nat) : VM :=
  let m := m.advancePc
  let m := m.setV 0xf (if m.regs.v x > m.regs.v y then 1 else 0)
  m.setV x (sub8 (m.regs.v x) (m.regs.v y))

/-- SHR Vx — `pc += 2; v[0xf] = v[x] & 1; v[x] = v[x] >> 1`. -/
def VM.process_opcode_8xy6 (m : VM) (x _y : Nat) : VM :=
  let m := m.advancePc
  let m := m.setV 0xf (m.regs.v x &&& 1)
  m.setV x (m.regs.v x >>> 1)

/-- SUBN Vx, Vy — `pc += 2; v[0xf] = if v[y] > v[x] { 1 } else { 0 };
v[x] = (v[y] as i8 - v[x] as i8) as u8`. -/
def VM.process_opcode_8xy7 (m : VM) (x y : Nat) : VM :=
  let m := m.advancePc
  let m := m.setV 0xf (if m.regs.v y > m.regs.v x then 1 else 0)
  m.setV x (sub8 (m.regs.v y) (m.regs.v x))

/-- SHL Vx — `pc += 2; v[0xf] = v[x] & 1; v[x] = v[x] << 1` (wrapping u8
shift).  The source stores `v[x] & 1` — the LEAST-significant bit — into the
flag, exactly as its SHR twin does. -/
def VM.process_opcode_8xye (m : VM) (x _y : Nat) : VM :=
  let m := m.advancePc
  let m := m.setV 0xf (m.regs.v x &&& 1)
  m.setV x ((m.regs.v x <<< 1) % 256)

/-- Secondary dispatch for the 0x8 family; an unknown low nibble is a panic. -/
def VM.process_opcode_8 (m : VM) (opcode : Nat) : Option VM :=
  let x := (opcode >>> 8) &&& 0x000f
  let y := (opcode >>> 4) &&& 0x000f
  let op := opcode &&& 0x000f
  if op = 0x0 then some (m.process_opcode_8xy0 x y)
  else if op = 0x1 then some (m.process_opcode_8xy1 x y)
  else if op = 0x2 then some (m.process_opcode_8xy2 x y)
  else if op = 0x3 then some (m.process_opcode_8xy3 x y)
  else if op = 0x4 then some (m.process_opcode_8xy4 x y)
  else if op = 0x5 then some (m.process_opcode_8xy5 x y)
  else if op = 0x6 then some (m.process_opcode_8xy6 x y)
  else if op = 0x7 then some (m.process_opcode_8xy7 x y)
  else if op = 0xe then some (m.process_opcode_8xye x y)
  else none

/-- SNE Vx, Vy — `pc += 2; if v[x] != v[y] { pc += 2 }`. -/
def VM.process_opcode_9xy0 (m : VM) (opcode : Nat) : VM :=
  let x := (opcode >>> 8) &&& 0x000f
  let y := (opcode >>> 4) &&& 0x000f
  let m := m.advancePc
  if m.regs.v x ≠ m.regs.v y then m.advancePc else m

/-- LD I, addr — `pc += 2; i = opcode & 0x0fff`. -/
def VM.process_opcode_annn (m : VM) (opcode : Nat) : VM :=
  let m := m.advancePc
  m.setI (opcode &&& 0x0fff)

/-- JP V0, addr — `pc = v[0] as u16 + (opcode & 0x0fff)`. -/
def VM.process_opcode_bnnn (m : VM) (opcode : Nat) : VM :=
  m.setPc ((m.regs.v 0 + (opcode &&& 0x0fff)) % 65536)

/-- RND Vx, byte — `pc += 2; v[x] = random.gen::<u8>() & kk`; the generator
is the abstracted byte stream. -/
def VM.process_opcode_cxkk (m : VM) (opcode : Nat) : VM :=
  let x := (opcode >>> 8) &&& 0x000f
  let kk := opcode &&& 0x00ff
  let m := m.advancePc
  let m := m.setV x ((m.randomStream m.randomPos % 256) &&& kk)
  { m with randomPos := m.randomPos + 1 }

/-- DRW Vx, Vy, nibble — `unimplemented!` in the source (panic). -/
def VM.process_opcode_dxyn (_m : VM) (_opcode : Nat) : Option VM := none

/-- SKP Vx — `unimplemented!` in the source (panic). -/
def VM.process_opcode_ex9e (_m : VM) (_x : Nat) : Option VM := none

/-- SKNP Vx — `unimplemented!` in the source (panic). -/
def VM.process_opcode_exa1 (_m : VM) (_x : Nat) : Option VM := none

/-- Secondary dispatch for the 0xE family; an unknown low byte is a panic. -/
def VM.process_opcode_e (m : VM) (opcode : Nat) : Option VM :=
  let x := (opcode >>> 8) &&& 0x000f
  let op := opcode &&& 0x00ff
  if op = 0x9e then m.process_opcode_ex9e x
  else if op = 0xa1 then m.process_opcode_exa1 x
  else none

/-- LD Vx, DT — `pc += 2; v[x] = delay_timer`. -/
def VM.process_opcode_fx07 (m : VM) (x : Nat) : VM :=
  let m := m.advancePc
  m.setV x m.regs.delay_timer

/-- LD Vx, K — `unimplemented!` in the source (panic). -/
def VM.process_opcode_fx0a (_m : VM) (_x : Nat) : Option VM := none

/-- LD DT, Vx — `pc += 2; delay_timer = v[x]`. -/
def VM.process_opcode_fx15 (m : VM) (x : Nat) : VM :=
  let m := m.advancePc
  { m with regs := { m.regs with delay_timer := m.regs.v x } }

/-- LD ST, Vx — `pc += 2; sound_timer = v[x]`. -/
def VM.process_opcode_fx18 (m : VM) (x : Nat) : VM :=
  let m := m.advancePc
  { m with regs := { m.regs with sound_timer := m.regs.v x } }

/-- ADD I, Vx — `pc += 2; i += v[x] as u16` (wrapping u16 add). -/
def VM.process_opcode_fx1e (m : VM) (x : Nat) : VM :=
  let m := m.advancePc
  m.setI ((m.regs.i + m.regs.v x) % 65536)

/-- LD F, Vx — `unimplemented!` in the source (panic). -/
def VM.process_opcode_fx29 (_m : VM) (_x : Nat) : Option VM := none

/-- LD B, Vx — `unimplemented!` in the source (panic). -/
def VM.process_opcode_fx33 (_m : VM) (_x : Nat) : Option VM := none

/-- LD [I], Vx — `pc += 2; address = i; for i in 0..=x { memory[address + i] = v[i] }`. -/
def VM.process_opcode_fx55 (m : VM) (x : Nat) : Option VM :=
  let m := m.advancePc
  let address := m.regs.i
  (List.range (x + 1)).foldlM (fun acc j => acc.writeMem (address + j) (acc.regs.v j)) m

/-- LD Vx, [I] — `pc += 2; address = i; for i in 0..=x { v[i] = memory[address + i] }`. -/
def VM.process_opcode_fx65 (m : VM) (x : Nat) : Option VM :=
  let m := m.advancePc
  let address := m.regs.i
  (List.range (x + 1)).foldlM
    (fun acc j => do
      let b ← acc.readMem (address + j)
      pure (acc.setV j b)) m

/-- Secondary dispatch for the 0xF family; an unknown low byte is a panic. -/
def VM.process_opcode_f (m : VM) (opcode : Nat) : Option VM :=
  let x := (opcode >>> 8) &&& 0x000f
  let op := opcode &&& 0x00ff
  if op = 0x07 then some (m.process_opcode_fx07 x)
  else if op = 0x0a then m.process_opcode_fx0a x
  else if op = 0x15 then some (m.process_opcode_fx15 x)
  else if op = 0x18 then some (m.process_opcode_fx18 x)
  else if op = 0x1e then some (m.process_opcode_fx1e x)
  else if op = 0x29 then m.process_opcode_fx29 x
  else if op = 0x33 then m.process_opcode_fx33 x
  else if op = 0x55 then m.process_opcode_fx55 x
  else if op = 0x65 then m.process_opcode_fx65 x
  else none

/-- Rust `VM::process_opcode`: primary dispatch on the top nibble (the source's
`match` over `(opcode >> 12) as u8`, written as the equivalent if-chain). -/
def VM.process_opcode (m : VM) (opcode : Nat) : Option VM :=
  let op := opcode >>> 12
  if op = 0x0 then m.process_opcode_0 opcode
  else if op = 0x1 then some (m.process_opcode_1nnn opcode)
  else if op = 0x2 then m.process_opcode_2nnn opcode
  else if op = 0x3 then some (m.process_opcode_3xkk opcode)
  else if op = 0x4 then some (m.process_opcode_4xkk opcode)
  else if op = 0x5 then some (m.process_opcode_5xy0 opcode)
  else if op = 0x6 then some (m.process_opcode_6xkk opcode)
  else if op = 0x7 then some (m.process_opcode_7xkk opcode)
  else if op = 0x8 then m.process_opcode_8 opcode
  else if op = 0x9 then some (m.process_opcode_9xy0 opcode)
  else if op = 0xa then some (m.process_opcode_annn opcode)
  else if op = 0xb then some (m.process_opcode_bnnn opcode)
  else if op = 0xc then some (m.process_opcode_cxkk opcode)
  else if op = 0xd then m.process_opcode_dxyn opcode
  else if op = 0xe then m.process_opcode_e opcode
  else if op = 0xf then m.process_opcode_f opcode
  else none

/-- Rust `VM::step`: fetch the word at `pc`, then execute it. -/
def VM.step (m : VM) : Option VM := do
  let opcode ← m.read_u16 m.regs.pc
  m.process_opcode opcode

/-! Helper lemmas shared by the claim theorems. -/

theorem and_255_eq_mod (n : Nat) : n &&& 255 = n % 256 := by
  have h := Nat.and_pow_two_sub_one_eq_mod n 8
  simpa using h

theorem and_4095_eq_mod (n : Nat) : n &&& 4095 = n % 4096 := by
  have h := Nat.and_pow_two_sub_one_eq_mod n 12
  simpa using h

theorem updFn_same (f : Nat → Nat) (i x : Nat) : updFn f i x i = x := by
  simp [updFn]

theorem updFn_other (f : Nat → Nat) (i x j : Nat) (h : j ≠ i) : updFn f i x j = f j := by
  simp [updFn, h]

/-! Claim theorems. -/

/-- C9: for every machine state, `VM::reset` produces a state whose Memory
bytes and Call Stack entries are all zero, whose sixteen general registers,
address register and both timers are zero, whose program counter is 0x200
and whose stack pointer is the stack capacity 16. -/
theorem reset_zeroes_machine (s : VM) :
    (∀ a, (VM.reset s).memory a = 0) ∧
    (∀ j, (VM.reset s).stack j = 0) ∧
    (∀ j, (VM.reset s).regs.v j = 0) ∧
    (VM.reset s).regs.i = 0 ∧
    (VM.reset s).regs.delay_timer = 0 ∧
    (VM.reset s).regs.sound_timer = 0 ∧
    (VM.reset s).regs.pc = 0x200 ∧
    (VM.reset s).regs.sp = 16 :=
  ⟨fun _ => rfl, fun _ => rfl, fun _ => rfl, rfl, rfl, rfl, rfl, rfl⟩

/-- C4: ADD Vx, byte (7xkk) wraps `Vx ← (Vx + kk) mod 256` without fault
(the handler is a total function) and, when the decoded x is not 15, leaves
the flag register V15 unchanged. -/
theorem add_immediate_wraps_flag_untouched (s : VM) (opcode : Nat) :
    (VM.process_opcode_7xkk s opcode).regs.v ((opcode >>> 8) &&& 0x000f) =
      (s.regs.v ((opcode >>> 8) &&& 0x000f) + (opcode &&& 0x00ff)) % 256 ∧
    ((opcode >>> 8) &&& 0x000f ≠ 15 →
      (VM.process_opcode_7xkk s opcode).regs.v 15 = s.regs.v 15) := by
  unfold VM.process_opcode_7xkk VM.setV VM.advancePc updFn
  refine ⟨by simp, fun h => ?_⟩
  simp [if_neg (fun hh : (15 : Nat) = (opcode >>> 8) &&& 0x000f => h hh.symm)]

/-- Witness for C4: `ADD V1, 0x05` on the fresh machine (opcode 0x7105). -/
theorem add_immediate_witness :
    (VM.process_opcode_7xkk VM.new 0x7105).regs.v ((0x7105 >>> 8) &&& 0x000f) =
      (VM.new.regs.v ((0x7105 >>> 8) &&& 0x000f) + (0x7105 &&& 0x00ff)) % 256 ∧
    (VM.process_opcode_7xkk VM.new 0x7105).regs.v 15 = VM.new.regs.v 15 :=
  ⟨(add_immediate_wraps_flag_untouched VM.new 0x7105).1,
   (add_immediate_wraps_flag_untouched VM.new 0x7105).2 (by decide)⟩

/-- C1 counterexample: the source stores `v[x] & 1` (the least-significant
bit) into the flag, not bit 7.  With V1 = 0x80 (bit 7 set) SHL leaves the
flag at 0 although bit 7 of 0x80 is 1; and with x = 15 (Vx is the flag
itself) the sequential writes give V15 = 2 for V15 = 3, which matches
neither the claimed flag value `(3 >>> 7) &&& 1 = 0` nor the claimed shift
result `(3 <<< 1) % 256 = 6`. -/
theorem shl_msb_claim_fails :
    (VM.process_opcode_8xye (VM.setV VM.new 1 0x80) 1 0).regs.v 15 = 0 ∧
    (0x80 >>> 7) &&& 1 = 1 ∧
    (VM.process_opcode_8xye (VM.setV VM.new 15 3) 15 0).regs.v 15 = 2 ∧
    (3 <<< 1) % 256 = 6 ∧
    (3 >>> 7) &&& 1 = 0 :=
  ⟨rfl, rfl, rfl, rfl, rfl⟩

/-- C1 (amended): for every 8-bit value v in Vx with x ≠ 15, SHL Vx (8xyE)
sets the flag register V15 to the LEAST-significant bit of Vx (bit 0,
extracted as 0/1) as it was before the shift, and sets Vx to `(v << 1)`
truncated to 8 bits; pc advances by 2. -/
theorem shl_sets_flag_to_lsb (s : VM) (x y : Nat) (hx : x < 16) (h15 : x ≠ 15) :
    (VM.process_opcode_8xye s x y).regs.v 15 = s.regs.v x &&& 1 ∧
    (VM.process_opcode_8xye s x y).regs.v x = (s.regs.v x <<< 1) % 256 ∧
    (VM.process_opcode_8xye s x y).regs.pc = (s.regs.pc + 2) % 65536 := by
  unfold VM.process_opcode_8xye VM.setV VM.advancePc updFn
  refine ⟨?_, ?_, rfl⟩
  · simp [Ne.symm h15]
  · simp [h15]

/-- Witness for C1 (amended) at the spec's own example V1 = 9 (SHL V1 gives
V1 = 18, flag = 1). -/
theorem shl_sets_flag_to_lsb_witness :
    (VM.process_opcode_8xye (VM.setV VM.new 1 9) 1 0).regs.v 15 =
      (VM.setV VM.new 1 9).regs.v 1 &&& 1 ∧
    (VM.process_opcode_8xye (VM.setV VM.new 1 9) 1 0).regs.v 1 =
      ((VM.setV VM.new 1 9).regs.v 1 <<< 1) % 256 ∧
    (VM.process_opcode_8xye (VM.setV VM.new 1 9) 1 0).regs.pc =
      ((VM.setV VM.new 1 9).regs.pc + 2) % 65536 :=
  shl_sets_flag_to_lsb (VM.setV VM.new 1 9) 1 0 (by decide) (by decide)

/-- C2 counterexample: with x = y = 15 and V15 = 200, ADD Vx,Vy ends with
V15 = 1 (the flag write comes after the sum write and overwrites it), not
`(200 + 200) mod 256 = 144` as the claim requires for Vx. -/
theorem add_vx_vy_alias_fails :
    (VM.process_opcode_8xy4 (VM.setV VM.new 15 200) 15 15).regs.v 15 = 1 ∧
    (200 + 200) % 256 = 144 :=
  ⟨rfl, rfl⟩

/-- C2 (amended): for all 8-bit values a, b and register indices x ≠ 15 and
y, ADD Vx,Vy (8xy4) with Vx = a, Vy = b sets the flag V15 to 1 iff
a + b > 255 and sets Vx to `(a + b) mod 256`. -/
theorem add_vx_vy_carry (s : VM) (x y a b : Nat) (hx : x < 16) (hy : y < 16)
    (hx15 : x ≠ 15) (ha : s.regs.v x = a) (hb : s.regs.v y = b)
    (ha8 : a < 256) (hb8 : b < 256) :
    ((VM.process_opcode_8xy4 s x y).regs.v 15 = 1 ↔ a + b > 255) ∧
    (VM.process_opcode_8xy4 s x y).regs.v x = (a + b) % 256 := by
  unfold VM.process_opcode_8xy4 VM.setV VM.advancePc updFn
  subst ha
  subst hb
  constructor
  · dsimp only
    split_ifs with h1 h2 <;> first | omega | simp_all
  · simp [Ne.symm hx15, hx15, and_255_eq_mod]

/-- Witness for C2 (amended): V1 = 255, V2 = 5, `ADD V1, V2` (sum 260,
flag 1, V1 = 4). -/
theorem add_vx_vy_carry_witness :
    ((VM.process_opcode_8xy4 (VM.setV (VM.setV VM.new 1 255) 2 5) 1 2).regs.v 15 = 1 ↔
      255 + 5 > 255) ∧
    (VM.process_opcode_8xy4 (VM.setV (VM.setV VM.new 1 255) 2 5) 1 2).regs.v 1 =
      (255 + 5) % 256 :=
  add_vx_vy_carry (VM.setV (VM.setV VM.new 1 255) 2 5) 1 2 255 5
    (by decide) (by decide) (by decide) (by decide) (by decide) (by decide) (by decide)

/-- C3 counterexample: SUB Vx,Vy writes the borrow flag into V15 *before*
performing the subtraction, so the subtraction reads the already-updated
registers when x or y is 15.  With V1 = 10, V15 = 3 and `SUB V1, V15` the
result is V1 = 9 (10 minus the freshly written flag 1), not
`(10 - 3) mod 256 = 7`; with V15 = 100, V2 = 3 and `SUB V15, V2` the result
is V15 = 254 (flag 1 minus 3, wrapped), not `(100 - 3) mod 256 = 97`. -/
theorem sub_vx_vy_alias_fails :
    (VM.process_opcode_8xy5 (VM.setV (VM.setV VM.new 1 10) 15 3) 1 15).regs.v 1 = 9 ∧
    (10 + 256 - 3) % 256 = 7 ∧
    (VM.process_opcode_8xy5 (VM.setV (VM.setV VM.new 15 100) 2 3) 15 2).regs.v 15 = 254 ∧
    (100 + 256 - 3) % 256 = 97 :=
  ⟨rfl, rfl, rfl, rfl⟩

/-- C3 (amended): for all 8-bit values a, b and register indices x, y both
different from 15, SUB Vx,Vy (8xy5) with Vx = a, Vy = b sets the flag V15 to
1 iff a > b and sets Vx to `(a - b) mod 256`, written on naturals as
`(a + 256 - b) % 256` (two's-complement wraparound, never a fault; e.g.
a = 5, b = 10 gives Vx = 251, flag = 0). -/
theorem sub_vx_vy_borrow (s : VM) (x y a b : Nat) (hx : x < 16) (hy : y < 16)
    (hx15 : x ≠ 15) (hy15 : y ≠ 15) (ha : s.regs.v x = a) (hb : s.regs.v y = b)
    (ha8 : a < 256) (hb8 : b < 256) :
    ((VM.process_opcode_8xy5 s x y).regs.v 15 = 1 ↔ a > b) ∧
    (VM.process_opcode_8xy5 s x y).regs.v x = (a + 256 - b) % 256 := by
  unfold VM.process_opcode_8xy5 VM.setV VM.advancePc updFn sub8
  subst ha
  subst hb
  constructor
  · simp only [Ne.symm hx15, if_neg (fun hh : (15 : Nat) = x => hx15 hh.symm), if_pos rfl]
    split_ifs with h h2 <;> first | omega | simp_all
  · simp [hx15, hy15, Nat.mod_eq_of_lt ha8, Nat.mod_eq_of_lt hb8]

/-- Witness for C3 (amended) at the spec's own example a = 5, b = 10
(V1 = 251, flag = 0). -/
theorem sub_vx_vy_borrow_witness :
    ((VM.process_opcode_8xy5 (VM.setV (VM.setV VM.new 1 5) 2 10) 1 2).regs.v 15 = 1 ↔
      5 > 10) ∧
    (VM.process_opcode_8xy5 (VM.setV (VM.setV VM.new 1 5) 2 10) 1 2).regs.v 1 =
      (5 + 256 - 10) % 256 :=
  sub_vx_vy_borrow (VM.setV (VM.setV VM.new 1 5) 2 10) 1 2 5 10
    (by decide) (by decide) (by decide) (by decide) (by decide) (by decide)
    (by decide) (by decide)

/-- C5 counterexample: SKP V1 (opcode 0xE19E) and SKNP V1 (0xE1A1) do not
advance pc by 2 or 4 — they are `unimplemented!` in the source, so executing
them faults and produces no successor state. -/
theorem skp_sknp_fault :
    VM.process_opcode VM.new 0xe19e = none ∧
    VM.process_opcode VM.new 0xe1a1 = none :=
  ⟨rfl, rfl⟩

/-- C5 (amended): the four implemented skip instructions SE Vx,byte (3xkk),
SNE Vx,byte (4xkk), SE Vx,Vy (5xy0) and SNE Vx,Vy (9xy0) advance pc by
exactly 4 when their condition holds and exactly 2 otherwise, regardless of
which registers are compared, and modify no other state (the result is the
input state with only pc replaced); SKP Vx (Ex9E) and SKNP Vx (ExA1) are
unimplemented in the source and fault instead. -/
theorem skip_instructions_advance (s : VM) (opcode : Nat) :
    VM.process_opcode_3xkk s opcode =
      { s with regs := { s.regs with pc :=
          (s.regs.pc + 2 +
            if s.regs.v ((opcode >>> 8) &&& 0x000f) = opcode &&& 0x00ff then 2 else 0) % 65536 } } ∧
    VM.process_opcode_4xkk s opcode =
      { s with regs := { s.regs with pc :=
          (s.regs.pc + 2 +
            if s.regs.v ((opcode >>> 8) &&& 0x000f) ≠ opcode &&& 0x00ff then 2 else 0) % 65536 } } ∧
    VM.process_opcode_5xy0 s opcode =
      { s with regs := { s.regs with pc :=
          (s.regs.pc + 2 +
            if s.regs.v ((opcode >>> 8) &&& 0x000f) = s.regs.v ((opcode >>> 4) &&& 0x000f) then 2
            else 0) % 65536 } } ∧
    VM.process_opcode_9xy0 s opcode =
      { s with regs := { s.regs with pc :=
          (s.regs.pc + 2 +
            if s.regs.v ((opcode >>> 8) &&& 0x000f) ≠ s.regs.v ((opcode >>> 4) &&& 0x000f) then 2
            else 0) % 65536 } } ∧
    VM.process_opcode_e s opcode = none := by
  refine ⟨?_, ?_, ?_, ?_, ?_⟩
  · unfold VM.process_opcode_3xkk VM.advancePc
    dsimp only
    split_ifs with h <;> simp [VM.mk.injEq, Registers.mk.injEq]
  · unfold VM.process_opcode_4xkk VM.advancePc
    dsimp only
    split_ifs with h <;> simp [VM.mk.injEq, Registers.mk.injEq]
  · unfold VM.process_opcode_5xy0 VM.advancePc
    dsimp only
    split_ifs with h <;> simp [VM.mk.injEq, Registers.mk.injEq]
  · unfold VM.process_opcode_9xy0 VM.advancePc
    dsimp only
    split_ifs with h <;> simp [VM.mk.injEq, Registers.mk.injEq]
  · unfold VM.process_opcode_e VM.process_opcode_ex9e VM.process_opcode_exa1
    dsimp only
    split_ifs <;> rfl

/-- C8 counterexample: SYS 0x123 (opcode 0x0123) is not a no-op that
advances pc by 2 — `process_opcode_0nnn` is `unimplemented!` in the source,
so executing it on the fresh machine faults and yields no state at all. -/
theorem sys_claim_fails : VM.process_opcode VM.new 0x0123 = none := rfl

/-- C8 (amended): for every machine state and every 12-bit address nnn other
than 0x0E0 and 0x0EE, executing SYS nnn (opcode 0nnn) is a fatal fault
(unimplemented in the source): it produces no successor state, and in
particular does not advance pc. -/
theorem sys_faults (s : VM) (nnn : Nat) (hn : nnn < 4096)
    (he0 : nnn ≠ 0x00e0) (hee : nnn ≠ 0x00ee) :
    VM.process_opcode s nnn = none := by
  have h12 : nnn >>> 12 = 0 := by
    rw [Nat.shiftRight_eq_div_pow]
    omega
  have hmask : nnn &&& 0x0fff = nnn := by
    rw [show (0x0fff : Nat) = 4095 from rfl, and_4095_eq_mod]
    omega
  unfold VM.process_opcode VM.process_opcode_0 VM.process_opcode_0nnn
  dsimp only
  simp [h12, hmask, he0, hee]

/-- Witness for C8 (amended): SYS 0x456 on the fresh machine faults. -/
theorem sys_faults_witness : VM.process_opcode VM.new 0x0456 = none :=
  sys_faults VM.new 0x0456 (by decide) (by decide) (by decide)

/-- C10: `read_u16`/`write_u16` at address a access bytes a and a + 1, so
they succeed exactly when a ≤ 4094; at a = 4095 — an address inside the
4096-byte Memory — the access touches byte 4096 and is a fatal
out-of-bounds fault, and consequently a fetch (`step`) with pc = 4095 also
faults. -/
theorem word_access_bounds (s : VM) (a value : Nat) :
    (a ≤ 4094 →
      VM.read_u16 s a = some ((s.memory a <<< 8) ||| s.memory (a + 1)) ∧
      VM.write_u16 s a value =
        some { s with memory := updFn (updFn s.memory a ((value >>> 8) % 256)) (a + 1) (value &&& 0xff) }) ∧
    VM.read_u16 s 4095 = none ∧
    VM.write_u16 s 4095 value = none ∧
    (s.regs.pc = 4095 → VM.step s = none) := by
  have hr : VM.read_u16 s 4095 = none := by
    simp [VM.read_u16, VM.readMem, MEMORY_SIZE]
  refine ⟨fun h => ⟨?_, ?_⟩, hr, ?_, fun hpc => ?_⟩
  · simp [VM.read_u16, VM.readMem, MEMORY_SIZE, show a < 4096 by omega,
      show a + 1 < 4096 by omega]
  · simp [VM.write_u16, VM.writeMem, MEMORY_SIZE, show a < 4096 by omega,
      show a + 1 < 4096 by omega]
  · simp [VM.write_u16, VM.writeMem, MEMORY_SIZE]
  · unfold VM.step
    rw [hpc, hr]
    rfl

/-- Witness for C10 at a = 10 and value = 0xaabb on the fresh machine, plus
the fetch fault at a machine whose pc is 4095. -/
theorem word_access_bounds_witness :
    (VM.read_u16 VM.new 10 = some ((VM.new.memory 10 <<< 8) ||| VM.new.memory 11) ∧
      VM.write_u16 VM.new 10 0xaabb =
        some { VM.new with memory := updFn (updFn VM.new.memory 10 ((0xaabb >>> 8) % 256)) 11 (0xaabb &&& 0xff) }) ∧
    VM.step { VM.new with regs := { VM.new.regs with pc := 4095 } } = none :=
  ⟨(word_access_bounds VM.new 10 0xaabb).1 (by decide),
   (word_access_bounds { VM.new with regs := { VM.new.regs with pc := 4095 } } 0 0).2.2.2 rfl⟩

/-- C6: from any machine state with a free call-stack slot (1 ≤ sp, and sp
within the 16-slot stack's bounds as the Register File invariant requires),
CALL addr (2nnn) followed by RET (00EE) restores pc to the pre-call pc plus
2 (as a wrapping 16-bit value), restores sp to its pre-call value, and
leaves the vacated slot `stack[sp − 1]` equal to zero. -/
theorem call_then_ret (s : VM) (opcode : Nat) (h1 : 1 ≤ s.regs.sp)
    (h2 : s.regs.sp ≤ 16) :
    ∃ m r, VM.process_opcode_2nnn s opcode = some m ∧
      VM.process_opcode_00ee m = some r ∧
      r.regs.pc = (s.regs.pc + 2) % 65536 ∧
      r.regs.sp = s.regs.sp ∧
      r.stack (s.regs.sp - 1) = 0 := by
  have hsp : (s.regs.sp + 65535) % 65536 = s.regs.sp - 1 := by omega
  have hsp2 : (s.regs.sp - 1 + 1) % 65536 = s.regs.sp := by omega
  have hlt : s.regs.sp - 1 < STACK_SIZE := by
    unfold STACK_SIZE
    omega
  refine ⟨{ s with
              stack := updFn s.stack (s.regs.sp - 1) ((s.regs.pc + 2) % 65536),
              regs := { s.regs with pc := opcode &&& 0x0fff, sp := s.regs.sp - 1 } },
          { s with
              stack := updFn (updFn s.stack (s.regs.sp - 1) ((s.regs.pc + 2) % 65536))
                (s.regs.sp - 1) 0,
              regs := { s.regs with pc := (s.regs.pc + 2) % 65536, sp := s.regs.sp } },
          ?_, ?_, rfl, rfl, ?_⟩
  · unfold VM.process_opcode_2nnn VM.advancePc VM.setSp VM.writeStack VM.setPc
    dsimp only
    rw [hsp, if_pos hlt]
    rfl
  · simp [VM.process_opcode_00ee, VM.readStack, VM.writeStack, VM.setPc, VM.setSp,
      hlt, hsp2, updFn_same]
  · simp [updFn_same]

/-- Witness for C6: CALL 0x123 then RET on the fresh machine (sp = 16). -/
theorem call_then_ret_witness :
    ∃ m r, VM.process_opcode_2nnn VM.new 0x2123 = some m ∧
      VM.process_opcode_00ee m = some r ∧
      r.regs.pc = (VM.new.regs.pc + 2) % 65536 ∧
      r.regs.sp = VM.new.regs.sp ∧
      r.stack (VM.new.regs.sp - 1) = 0 :=
  call_then_ret VM.new 0x2123 (by decide) (by decide)

/-- Unfolding equation for the Fx55 store loop. -/
theorem fx55_eq (m : VM) (x : Nat) :
    VM.process_opcode_fx55 m x =
      (List.range (x + 1)).foldlM
        (fun acc j => acc.writeMem (m.regs.i + j) (acc.regs.v j)) m.advancePc := rfl

/-- Unfolding equation for the Fx65 load loop. -/
theorem fx65_eq (m : VM) (x : Nat) :
    VM.process_opcode_fx65 m x =
      (List.range (x + 1)).foldlM
        (fun acc j => do
          let b ← acc.readMem (m.regs.i + j)
          pure (acc.setV j b)) m.advancePc := rfl

/-- Store loop invariant: `for i in 0..=x { memory[address + i] = v[i] }`
succeeds when the whole range is in bounds, writes `v[j]` to byte
`address + j` for each `j ≤ x`, and changes nothing else. -/
theorem fx55_fold (address : Nat) (x : Nat) :
    ∀ (m : VM), address + x < 4096 →
    ∃ m2, (List.range (x + 1)).foldlM
        (fun acc j => acc.writeMem (address + j) (acc.regs.v j)) m = some m2 ∧
      m2.regs = m.regs ∧ m2.stack = m.stack ∧
      m2.randomStream = m.randomStream ∧ m2.randomPos = m.randomPos ∧
      (∀ j, j ≤ x → m2.memory (address + j) = m.regs.v j) ∧
      (∀ a, (∀ j, j ≤ x → a ≠ address + j) → m2.memory a = m.memory a) := by
  induction x with
  | zero =>
    intro m h
    refine ⟨{ m with memory := updFn m.memory (address + 0) (m.regs.v 0) },
      ?_, rfl, rfl, rfl, rfl, ?_, ?_⟩
    · simp [List.range_succ, List.range_zero, VM.writeMem, MEMORY_SIZE,
        show address < 4096 by omega]
    · intro j hj
      have hj0 : j = 0 := Nat.le_zero.mp hj
      subst hj0
      dsimp only
      rw [updFn_same]
    · intro a ha
      dsimp only
      rw [updFn_other]
      exact ha 0 (Nat.le_refl 0)
  | succ x ih =>
    intro m h
    obtain ⟨m1, hm1, hregs, hstack, hrs, hrp, hmem, hun⟩ := ih m (by omega)
    refine ⟨{ m1 with memory := updFn m1.memory (address + (x + 1)) (m1.regs.v (x + 1)) },
      ?_, ?_, ?_, ?_, ?_, ?_, ?_⟩
    · rw [List.range_succ, List.foldlM_append, hm1]
      simp [VM.writeMem, MEMORY_SIZE, show address + (x + 1) < 4096 by omega]
    · dsimp only
      rw [hregs]
    · dsimp only
      rw [hstack]
    · dsimp only
      rw [hrs]
    · dsimp only
      rw [hrp]
    · intro j hj
      dsimp only
      rcases Nat.lt_or_ge j (x + 1) with hlt | hge
      · rw [updFn_other _ _ _ _ (by omega : address + j ≠ address + (x + 1))]
        exact hmem j (by omega)
      · have hj1 : j = x + 1 := by omega
        subst hj1
        rw [updFn_same, hregs]
    · intro a ha
      dsimp only
      rw [updFn_other _ _ _ _ (ha (x + 1) (Nat.le_refl _))]
      exact hun a (fun j hj => ha j (by omega))

/-- Load loop invariant: `for i in 0..=x { v[i] = memory[address + i] }`
succeeds when the whole range is in bounds, loads byte `address + j` into
`v[j]` for each `j ≤ x`, and changes nothing else. -/
theorem fx65_fold (address : Nat) (x : Nat) :
    ∀ (m : VM), address + x < 4096 →
    ∃ m2, (List.range (x + 1)).foldlM
        (fun acc j => do
          let b ← acc.readMem (address + j)
          pure (acc.setV j b)) m = some m2 ∧
      m2.memory = m.memory ∧ m2.stack = m.stack ∧
      m2.regs.i = m.regs.i ∧ m2.regs.pc = m.regs.pc ∧ m2.regs.sp = m.regs.sp ∧
      m2.regs.delay_timer = m.regs.delay_timer ∧
      m2.regs.sound_timer = m.regs.sound_timer ∧
      m2.randomStream = m.randomStream ∧ m2.randomPos = m.randomPos ∧
      (∀ j, j ≤ x → m2.regs.v j = m.memory (address + j)) := by
  induction x with
  | zero =>
    intro m h
    refine ⟨m.setV 0 (m.memory (address + 0)),
      ?_, rfl, rfl, rfl, rfl, rfl, rfl, rfl, rfl, rfl, ?_⟩
    · simp [List.range_succ, List.range_zero, VM.readMem, VM.setV, MEMORY_SIZE,
        show address < 4096 by omega]
    · intro j hj
      have hj0 : j = 0 := Nat.le_zero.mp hj
      subst hj0
      simp [VM.setV, updFn_same]
  | succ x ih =>
    intro m h
    obtain ⟨m1, hm1, hmemeq, hstack, hi, hpc, hsp, hd, hsnd, hrs, hrp, hv⟩ := ih m (by omega)
    refine ⟨m1.setV (x + 1) (m1.memory (address + (x + 1))),
      ?_, ?_, ?_, ?_, ?_, ?_, ?_, ?_, ?_, ?_, ?_⟩
    · rw [List.range_succ, List.foldlM_append, hm1]
      simp [VM.readMem, VM.setV, MEMORY_SIZE, show address + (x + 1) < 4096 by omega]
    · simp [VM.setV]
      exact hmemeq
    · simp [VM.setV]
      exact hstack
    · simp [VM.setV]
      exact hi
    · simp [VM.setV]
      exact hpc
    · simp [VM.setV]
      exact hsp
    · simp [VM.setV]
      exact hd
    · simp [VM.setV]
      exact hsnd
    · simp [VM.setV]
      exact hrs
    · simp [VM.setV]
      exact hrp
    · intro j hj
      rcases Nat.lt_or_ge j (x + 1) with hlt | hge
      · simp only [VM.setV]
        rw [updFn_other _ _ _ _ (by omega : j ≠ x + 1)]
        exact hv j (by omega)
      · have hj1 : j = x + 1 := by omega
        subst hj1
        simp only [VM.setV]
        rw [updFn_same, hmemeq]

/-- C7: for every register index x and address register value I with
I + x ≤ 4095, `LD [I],Vx` (Fx55) followed by `LD Vx,[I]` (Fx65) leaves the
general registers V0..Vx and the memory bytes `[I .. I+x]` equal to the
values written by the store (the pre-existing register values), and neither
instruction mutates the address register I. -/
theorem store_load_roundtrip (s : VM) (x : Nat) (hx : x < 16)
    (h : s.regs.i + x ≤ 4095) :
    ∃ m r, VM.process_opcode_fx55 s x = some m ∧
      VM.process_opcode_fx65 m x = some r ∧
      m.regs.i = s.regs.i ∧ r.regs.i = s.regs.i ∧
      (∀ j, j ≤ x → r.regs.v j = s.regs.v j) ∧
      (∀ j, j ≤ x → r.memory (s.regs.i + j) = s.regs.v j) := by
  have h4 : s.regs.i + x < 4096 := by omega
  obtain ⟨m1, hm1, hregs, hstack, hrs1, hrp1, hmem, hun⟩ :=
    fx55_fold s.regs.i x s.advancePc h4
  have hi1 : m1.regs.i = s.regs.i := by
    rw [hregs]
    simp [VM.advancePc]
  have hm1v : m1.regs.v = s.regs.v := by
    rw [hregs]
    simp [VM.advancePc]
  have hstore : ∀ j, j ≤ x → m1.memory (s.regs.i + j) = s.regs.v j := by
    intro j hj
    rw [hmem j hj]
    simp [VM.advancePc]
  obtain ⟨r, hr, hrmem, hrstack, hri, hrpc, hrsp, hrd, hrsnd, hrrs, hrrp, hrv⟩ :=
    fx65_fold m1.regs.i x m1.advancePc (by omega)
  have hadvmem : (m1.advancePc).memory = m1.memory := by
    simp [VM.advancePc]
  have hadvi : (m1.advancePc).regs.i = m1.regs.i := by
    simp [VM.advancePc]
  refine ⟨m1, r, ?_, ?_, hi1, ?_, ?_, ?_⟩
  · rw [fx55_eq]
    exact hm1
  · rw [fx65_eq]
    exact hr
  · rw [hri, hadvi, hi1]
  · intro j hj
    rw [hrv j hj, hadvmem, hi1, hstore j hj]
  · intro j hj
    rw [hrmem, hadvmem]
    exact hstore j hj

/-- Witness for C7: fresh machine, x = 2, I = 0 (the whole range 0..2 in
bounds). -/
theorem store_load_roundtrip_witness :
    ∃ m r, VM.process_opcode_fx55 VM.new 2 = some m ∧
      VM.process_opcode_fx65 m 2 = some r ∧
      m.regs.i = VM.new.regs.i ∧ r.regs.i = VM.new.regs.i ∧
      (∀ j, j ≤ 2 → r.regs.v j = VM.new.regs.v j) ∧
      (∀ j, j ≤ 2 → r.memory (VM.new.regs.i + j) = VM.new.regs.v j) :=
  store_load_roundtrip VM.new 2 (by decide) (by decide)

end Dale
